import Mathlib

/-!
Verification of the response-parsing and quantity-normalization pipeline of
`gemini_pdf_analyzer.py` (method `QuantitySurveyorAI._parse_response`, lines
182-221, plus the steel-weight recomputation loop it contains).

Modelling conventions (shallow embedding):
* Response text is a `List Char`.
* Python `int`/`float` values are idealized as exact fractions `PyNum`
  (integer numerator over a positive natural denominator, kept unnormalized
  so that every arithmetic step is kernel-computable); two fractions denote
  the same Python value when `PyNum.equiv` holds.  The Python `round(x, 2)`
  (round-half-to-even on the scaled value) is `pyRound2`; its result is
  representation-independent for positive denominators.
* `json.loads` is modelled by the executable fuel-based parser `loads`
  (RFC 8259 grammar as accepted by Python's `json` module: objects, arrays,
  strings with escapes, numbers, `true`/`false`/`null`; duplicate object keys
  overwrite earlier ones, as `dict` construction does).
* The two regular expressions of `_parse_response` are modelled character by
  character: `findFenced` models the search for the fenced pattern
  <fence>json\s*(\{.*?\})\s*<fence> under DOTALL (leftmost start, non-greedy
  body, deterministic \s* backtracking) and `greedySpan` models the greedy
  search for \{.*\} under DOTALL (first brace through the last closing
  brace).  The class \s is modelled by its ASCII cases.
* Python exceptions raised inside the `try` block are values of `PyErr`
  (`KeyError` from a missing dict key, `TypeError` from an operation on an
  unsupported operand); the surrounding `try/except` is the `match` in
  `parse_response`, which degrades every failure to `placeholderResult`.
-/

/-- An exact numeric value: the fraction `num / den`.  Denominators produced
by the decoder and the weight formula are always positive; fractions are not
reduced, so all arithmetic is plain integer arithmetic. -/
structure PyNum where
  num : Int
  den : Nat
deriving DecidableEq

/-- Two fractions denote the same value (cross multiplication). -/
def PyNum.equiv (a b : PyNum) : Prop :=
  a.num * (b.den : Int) = b.num * (a.den : Int)

instance (a b : PyNum) : Decidable (PyNum.equiv a b) := by
  unfold PyNum.equiv; infer_instance

/-- Product of two fractions. -/
def PyNum.mul (a b : PyNum) : PyNum := ⟨a.num * b.num, a.den * b.den⟩

/-- Quotient of a fraction by a positive natural constant (the only division
the weight formula performs). -/
def PyNum.divNat (a : PyNum) (k : Nat) : PyNum := ⟨a.num, a.den * k⟩

/-- A JSON value as produced by `json.loads`: `null`, booleans, numbers
(idealized as exact fractions), strings, arrays, and objects (association
lists with unique keys, in insertion order, as a Python `dict`). -/
inductive Json where
  | null : Json
  | bool (b : Bool) : Json
  | num (q : PyNum) : Json
  | str (s : String) : Json
  | arr (xs : List Json) : Json
  | obj (kvs : List (String × Json)) : Json

/-- Key strings used by `_parse_response`. -/
def bbsKey : String := "bbs"

def boqKey : String := "boq"

def diaKey : String := "dia_mm"

def totKey : String := "total_length"

def weightKey : String := "weight_kg"

def scaleKey : String := "scale"

def notesKey : String := "notes"

def assumpKey : String := "assumptions"

def markKey : String := "mark"

/-- Association-list lookup, first match (keys are unique by construction). -/
def lookupKey : List (String × Json) → String → Option Json
  | [], _ => none
  | (k', v) :: rest, k => if k' = k then some v else lookupKey rest k

/-- Python `dict` assignment `d[k] = v`: replace the value of an existing key
in place (keeping its position) or append a new binding at the end. -/
def setPairs : List (String × Json) → String → Json → List (String × Json)
  | [], k, v => [(k, v)]
  | (k', v') :: rest, k, v =>
    if k' = k then (k, v) :: rest else (k', v') :: setPairs rest k v

/-- Read access `d.get(k)` / `d[k]` on an object; `none` on other values. -/
def Json.getKey : Json → String → Option Json
  | Json.obj kvs, k => lookupKey kvs k
  | _, _ => none

/-- Assignment `d[k] = v` on an object; identity on other values (never reached). -/
def Json.setKey : Json → String → Json → Json
  | Json.obj kvs, k, v => Json.obj (setPairs kvs k v)
  | j, _, _ => j

/-- Numeric view of a Python value: JSON numbers are numeric, and Python
booleans are numeric too (`bool` is an `int` subclass: `True ** 2 == 1`).
Strings, `None`, lists and dicts make `**` / `*` raise `TypeError`. -/
def toNum : Json → Option PyNum
  | Json.num q => some q
  | Json.bool b => some ⟨if b then 1 else 0, 1⟩
  | _ => none

/-! ## Regex models -/

/-- The left brace character (written by code to keep literals regular). -/
def lbrace : Char := '\x7b'

/-- The right brace character. -/
def rbrace : Char := '\x7d'

/-- The backtick character of a markdown fence. -/
def btick : Char := '\x60'

/-- ASCII cases of the regex class `\s`. -/
def isRegexSpace (c : Char) : Bool :=
  c = ' ' || c = '\t' || c = '\n' || c = '\r' || c = '\x0b' || c = '\x0c'

/-- The literal the fenced-block pattern must see first: three backticks and
the tag `json`. -/
def fenceTag : List Char := [btick, btick, btick, 'j', 's', 'o', 'n']

/-- Three backticks: the closing fence. -/
def fence3 : List Char := [btick, btick, btick]

/-- Holds when the first argument is a literal prefix of the second. -/
def startsList : List Char → List Char → Bool
  | [], _ => true
  | _ :: _, [] => false
  | c :: cs, d :: ds => c = d && startsList cs ds

/-- After a candidate closing `rbrace`, the pattern `\s*` then three backticks
must match; with a greedy-plus-backtracking `\s*` this is equivalent to
skipping all whitespace and requiring the fence. -/
def closesFence (s : List Char) : Bool :=
  decide ((s.dropWhile isRegexSpace).take 3 = fence3)

/-- The non-greedy body `(\{.*?\})\s*` followed by the closing fence: scan for
the first `rbrace` whose continuation closes the fence; every earlier
character (including failing `rbrace`s) is consumed by `.*?`.  `acc` holds the
consumed characters in reverse; the result is the whole regex group
(braces included). -/
def fencedScan (acc : List Char) : List Char → Option (List Char)
  | [] => none
  | c :: rest =>
    if c = rbrace && closesFence rest then
      some (lbrace :: (acc.reverse ++ [rbrace]))
    else fencedScan (c :: acc) rest

/-- Attempt of the fenced pattern at a fixed start: `s` is the text right
after the `fenceTag` literal; `\s*` then `\x7b` then the non-greedy body. -/
def fencedAt (s : List Char) : Option (List Char) :=
  match s.dropWhile isRegexSpace with
  | c :: rest => if c = lbrace then fencedScan [] rest else none
  | [] => none

/-- Search of the fenced pattern: try every start position left to
right; a start must begin with `fenceTag` and complete the whole pattern,
otherwise the search moves one character right. -/
def findFenced : List Char → Option (List Char)
  | [] => none
  | c :: rest =>
    if startsList fenceTag (c :: rest) then
      match fencedAt ((c :: rest).drop fenceTag.length) with
      | some g => some g
      | none => findFenced rest
    else findFenced rest

/-- Index of the last `rbrace`, if any. -/
def lastBraceIdx (s : List Char) : Option Nat :=
  match s.reverse.findIdx? (fun c => c == rbrace) with
  | none => none
  | some i => some (s.length - 1 - i)

/-- Model of the greedy search for \{.*\} under DOTALL: the span from the
first `lbrace` through the last `rbrace` of the whole text, when the former
precedes the latter. -/
def greedySpan (s : List Char) : Option (List Char) :=
  match s.findIdx? (fun c => c == lbrace), lastBraceIdx s with
  | some p, some q => if p < q then some ((s.drop p).take (q - p + 1)) else none
  | _, _ => none

/-- Candidate extraction of `_parse_response` lines 186-195: the fenced
pattern first, the greedy span as fallback; `none` models the raised
`ValueError` (caught further out). -/
def extractCandidate (s : List Char) : Option (List Char) :=
  match findFenced s with
  | some g => some g
  | none => greedySpan s

/-! ## Model of `json.loads` -/

/-- JSON insignificant whitespace. -/
def isJsonWs (c : Char) : Bool := c = ' ' || c = '\t' || c = '\n' || c = '\r'

/-- Skip insignificant whitespace. -/
def skipWs (s : List Char) : List Char := s.dropWhile isJsonWs

/-- Value of a hexadecimal digit. -/
def hexVal (c : Char) : Option Nat :=
  if '0' ≤ c ∧ c ≤ '9' then some (c.toNat - 48)
  else if 'a' ≤ c ∧ c ≤ 'f' then some (c.toNat - 87)
  else if 'A' ≤ c ∧ c ≤ 'F' then some (c.toNat - 55)
  else none

/-- Body of a JSON string after the opening quote: collect characters until
the closing quote, decoding escapes; raw control characters are rejected
(strict mode).  `acc` holds the decoded characters in reverse. -/
def parseStrBody : Nat → List Char → List Char → Option (String × List Char)
  | 0, _, _ => none
  | f + 1, acc, s =>
    match s with
    | [] => none
    | '"' :: rest => some (String.mk acc.reverse, rest)
    | '\\' :: e :: rest =>
      if e = '"' then parseStrBody f ('"' :: acc) rest
      else if e = '\\' then parseStrBody f ('\\' :: acc) rest
      else if e = '/' then parseStrBody f ('/' :: acc) rest
      else if e = 'b' then parseStrBody f ('\x08' :: acc) rest
      else if e = 'f' then parseStrBody f ('\x0c' :: acc) rest
      else if e = 'n' then parseStrBody f ('\n' :: acc) rest
      else if e = 'r' then parseStrBody f ('\r' :: acc) rest
      else if e = 't' then parseStrBody f ('\t' :: acc) rest
      else if e = 'u' then
        match rest with
        | a :: b :: c :: d :: rest2 =>
          match hexVal a, hexVal b, hexVal c, hexVal d with
          | some ha, some hb, some hc, some hd =>
            parseStrBody f (Char.ofNat (((ha * 16 + hb) * 16 + hc) * 16 + hd) :: acc) rest2
          | _, _, _, _ => none
        | _ => none
      else none
    | c :: rest =>
      if c = '\\' then none
      else if c.toNat < 32 then none
      else parseStrBody f (c :: acc) rest

/-- Decimal value of a digit list. -/
def digitsToNat (ds : List Char) : Nat :=
  ds.foldl (fun n c => n * 10 + (c.toNat - 48)) 0

/-- Assemble a JSON number from sign, integer digits, fraction digits and
decimal exponent; exact where Python would produce a `float`. -/
def mkNum (neg : Bool) (ids fds : List Char) (e : Int) : Json :=
  let m : Int := (digitsToNat (ids ++ fds) : Int)
  let m' : Int := if neg then -m else m
  let shift : Int := e - (fds.length : Int)
  if 0 ≤ shift then Json.num ⟨m' * ((10 ^ shift.toNat : Nat) : Int), 1⟩
  else Json.num ⟨m', 10 ^ (-shift).toNat⟩

/-- Exponent part after `e`/`E`: optional sign, then at least one digit. -/
def parseExpPart (neg : Bool) (ids fds : List Char) (r : List Char) : Option (Json × List Char) :=
  let p : Bool × List Char :=
    match r with
    | '+' :: rr => (false, rr)
    | '-' :: rr => (true, rr)
    | _ => (false, r)
  let eds := p.2.takeWhile Char.isDigit
  if eds = [] then none
  else
    let e : Int := if p.1 then -(digitsToNat eds : Int) else (digitsToNat eds : Int)
    some (mkNum neg ids fds e, p.2.dropWhile Char.isDigit)

/-- After integer and fraction digits: an optional exponent part. -/
def finishNum (neg : Bool) (ids fds : List Char) (r : List Char) : Option (Json × List Char) :=
  match r with
  | 'e' :: rest => parseExpPart neg ids fds rest
  | 'E' :: rest => parseExpPart neg ids fds rest
  | _ => some (mkNum neg ids fds 0, r)

/-- JSON number grammar: `-? (0 | [1-9][0-9]*) (. [0-9]+)? ([eE][+-]?[0-9]+)?`. -/
def parseNum (s : List Char) : Option (Json × List Char) :=
  let p : Bool × List Char :=
    match s with
    | '-' :: r => (true, r)
    | _ => (false, s)
  let ids := p.2.takeWhile Char.isDigit
  let r1 := p.2.dropWhile Char.isDigit
  if ids = [] then none
  else if 1 < ids.length ∧ ids.head? = some '0' then none
  else
    match r1 with
    | '.' :: r2 =>
      let fds := r2.takeWhile Char.isDigit
      if fds = [] then none
      else finishNum p.1 ids fds (r2.dropWhile Char.isDigit)
    | _ => finishNum p.1 ids [] r1

/-- State of the recursive-descent decoder: a value, the members of an object
(accumulated bindings, expecting `"key" : value`), or the elements of an
array (accumulated values, expecting a value). -/
inductive PMode where
  | val : PMode
  | objm (acc : List (String × Json)) : PMode
  | arrm (acc : List Json) : PMode

/-- Fixed literal (`true`, `false`, `null`). -/
def parseLit (lit : List Char) (j : Json) (s : List Char) : Option (Json × List Char) :=
  if startsList lit s then some (j, s.drop lit.length) else none

/-- The decoder, fuel-based (fuel is structural; every recursive call follows
the consumption of at least one character, so `length + 2` fuel suffices). -/
def parseGo : Nat → PMode → List Char → Option (Json × List Char)
  | 0, _, _ => none
  | f + 1, PMode.val, s =>
    match s with
    | [] => none
    | c :: rest =>
      if c = lbrace then
        match skipWs rest with
        | c2 :: r2 =>
          if c2 = rbrace then some (Json.obj [], r2)
          else parseGo f (PMode.objm []) (c2 :: r2)
        | [] => none
      else if c = '[' then
        match skipWs rest with
        | c2 :: r2 =>
          if c2 = ']' then some (Json.arr [], r2)
          else parseGo f (PMode.arrm []) (c2 :: r2)
        | [] => none
      else if c = '"' then
        match parseStrBody (rest.length + 1) [] rest with
        | some (k, r) => some (Json.str k, r)
        | none => none
      else if c = 't' then parseLit (['r', 'u', 'e']) (Json.bool true) rest
      else if c = 'f' then parseLit (['a', 'l', 's', 'e']) (Json.bool false) rest
      else if c = 'n' then parseLit (['u', 'l', 'l']) Json.null rest
      else parseNum (c :: rest)
  | f + 1, PMode.objm acc, s =>
    match s with
    | '"' :: rest =>
      match parseStrBody (rest.length + 1) [] rest with
      | some (k, r1) =>
        match skipWs r1 with
        | ':' :: r2 =>
          match parseGo f PMode.val (skipWs r2) with
          | some (v, r3) =>
            match skipWs r3 with
            | ',' :: r4 => parseGo f (PMode.objm (setPairs acc k v)) (skipWs r4)
            | c2 :: r4 =>
              if c2 = rbrace then some (Json.obj (setPairs acc k v), r4) else none
            | [] => none
          | none => none
        | _ => none
      | none => none
    | _ => none
  | f + 1, PMode.arrm acc, s =>
    match parseGo f PMode.val s with
    | some (v, r1) =>
      match skipWs r1 with
      | ',' :: r2 => parseGo f (PMode.arrm (acc ++ [v])) (skipWs r2)
      | c2 :: r2 => if c2 = ']' then some (Json.arr (acc ++ [v]), r2) else none
      | [] => none
    | none => none

/-- Model of `json.loads`: decode one value, then require only whitespace to follow. -/
def loads (s : List Char) : Option Json :=
  match parseGo (s.length + 2) PMode.val (skipWs s) with
  | some (j, rest) => if skipWs rest = [] then some j else none
  | none => none

/-! ## The normalization loop and `_parse_response` -/

/-- A Python exception raised inside the `try` block of `_parse_response`. -/
inductive PyErr where
  | keyError (key : String) : PyErr
  | typeError (msg : String) : PyErr
deriving DecidableEq

/-- Message of the `TypeError` raised by `**` on a non-numeric operand. -/
def powMsg : String := "unsupported operand type for pow"

/-- Message of the `TypeError` raised by `*` on a non-numeric operand. -/
def mulMsg : String := "unsupported operand type for mul"

/-- Message of the `TypeError` raised by subscripting a non-dict item. -/
def subscrMsg : String := "indices must be integers"

/-- Subscript `item[k]`: value of the key on a dict (raising `KeyError(k)`
when the key is absent), `TypeError` on any non-dict item. -/
def subscriptField (item : Json) (k : String) : Except PyErr Json :=
  match item with
  | Json.obj kvs =>
    match lookupKey kvs k with
    | some v => Except.ok v
    | none => Except.error (PyErr.keyError k)
  | _ => Except.error (PyErr.typeError subscrMsg)

/-- Round a fraction to the nearest integer, ties to even (the Python `round`
on a value representable exactly): floor, remainder, then compare twice the
remainder against the denominator. -/
def roundHalfEven (q : PyNum) : Int :=
  let f := Int.fdiv q.num (q.den : Int)
  let rem := q.num - f * (q.den : Int)
  if 2 * rem < (q.den : Int) then f
  else if (q.den : Int) < 2 * rem then f + 1
  else if f % 2 = 0 then f else f + 1

/-- Model of the Python `round(x, 2)` on the idealized value: round `x * 100` to the
nearest integer (ties to even) and divide by 100. -/
def pyRound2 (q : PyNum) : PyNum := ⟨roundHalfEven (q.mul ⟨100, 1⟩), 100⟩

/-- Lines 203-204: `round((dia ** 2 / 162) * length * 1.02, 2)` with the
same association as the Python expression. -/
def pythonWeight (d l : PyNum) : PyNum :=
  pyRound2 ((((d.mul d).divNat 162).mul l).mul ⟨102, 100⟩)

/-- Lines 201-204 for one `bbs_item`: read `dia_mm`, read `total_length`,
compute the weight (``**`` fails first on a non-numeric diameter, then `*`
on a non-numeric length), and assign it to `weight_kg`, overwriting any
value present. -/
def normItem (item : Json) : Except PyErr Json :=
  match subscriptField item diaKey with
  | Except.error e => Except.error e
  | Except.ok dia =>
    match subscriptField item totKey with
    | Except.error e => Except.error e
    | Except.ok len =>
      match toNum dia with
      | none => Except.error (PyErr.typeError powMsg)
      | some d =>
        match toNum len with
        | none => Except.error (PyErr.typeError mulMsg)
        | some l => Except.ok (item.setKey weightKey (Json.num (pythonWeight d l)))

/-- The `for` loop over the `bbs` list: process items in order, stopping at
the first raised exception. -/
def mapExcept (f : Json → Except PyErr Json) : List Json → Except PyErr (List Json)
  | [] => Except.ok []
  | x :: xs =>
    match f x with
    | Except.error e => Except.error e
    | Except.ok y =>
      match mapExcept f xs with
      | Except.error e => Except.error e
      | Except.ok ys => Except.ok (y :: ys)

/-- Lines 200-204: the loop over the bbs list, default `[]`.  A missing
`bbs` key iterates the default `[]`, leaving `data` unchanged; a list is
processed item by item in place; iterating a non-empty string or dict makes
the first subscript raise `TypeError`; numbers, booleans and `None` are not
iterable. -/
def normalizeResult (data : Json) : Except PyErr Json :=
  match Json.getKey data bbsKey with
  | none => Except.ok data
  | some (Json.arr xs) =>
    match mapExcept normItem xs with
    | Except.error e => Except.error e
    | Except.ok ys => Except.ok (Json.setKey data bbsKey (Json.arr ys))
  | some (Json.str s) =>
    if s = "" then Except.ok data else Except.error (PyErr.typeError subscrMsg)
  | some (Json.obj kvs) =>
    match kvs with
    | [] => Except.ok data
    | _ :: _ => Except.error (PyErr.typeError subscrMsg)
  | some _ => Except.error (PyErr.typeError ("object is not iterable"))

/-- The diagnostic note of the placeholder result (line 219). -/
def failNote : String := "Parsing failed - see raw response above"

/-- The placeholder scale (line 216). -/
def unknownScale : String := "Unknown"

/-- Lines 215-221: the empty-but-valid result returned by the `except` arm. -/
def placeholderResult : Json :=
  Json.obj [(scaleKey, Json.str unknownScale), (boqKey, Json.arr []),
    (bbsKey, Json.arr []), (notesKey, Json.arr [Json.str failNote]),
    (assumpKey, Json.arr [])]

/-- Model of `QuantitySurveyorAI._parse_response` (lines 182-221): extract a candidate
JSON string, decode it, recompute all steel weights; any raised exception is
caught and degraded to `placeholderResult`. -/
def parse_response (text : List Char) : Json :=
  match extractCandidate text with
  | none => placeholderResult
  | some cand =>
    match loads cand with
    | none => placeholderResult
    | some data =>
      match normalizeResult data with
      | Except.error _ => placeholderResult
      | Except.ok out => out

/-- The `bbs` list of a result (empty when absent or not a list). -/
def bbsItems (data : Json) : List Json :=
  match Json.getKey data bbsKey with
  | some (Json.arr xs) => xs
  | _ => []

/-! ## Concrete data used by witnesses and counterexamples -/

/-- A realistic fenced response: one bbs item with a wrong supplied weight. -/
def c1text : String := "\x60\x60\x60json\n\x7b\"bbs\": [\x7b\"mark\": \"F1-M1\", \"dia_mm\": 12, \"total_length\": 17.6, \"weight_kg\": 1.32\x7d]\x7d\n\x60\x60\x60"

/-- The candidate the fenced pattern extracts from `c1text`. -/
def c1cand : List Char := ("\x7b\"bbs\": [\x7b\"mark\": \"F1-M1\", \"dia_mm\": 12, \"total_length\": 17.6, \"weight_kg\": 1.32\x7d]\x7d").data

/-- The decoded bbs item of `c1text`. -/
def c1item : Json :=
  Json.obj [(markKey, Json.str ("F1-M1")), (diaKey, Json.num ⟨12, 1⟩),
    (totKey, Json.num ⟨176, 10⟩), (weightKey, Json.num ⟨132, 100⟩)]

/-- The decoded object of `c1text`. -/
def c1data : Json := Json.obj [(bbsKey, Json.arr [c1item])]

/-- The bbs item of the P4 example in the spec: dia 12mm, total length 17.6m, with
the supplied (wrong) weight 1.32. -/
def c2item : Json :=
  Json.obj [(markKey, Json.str ("F1-M1")), (diaKey, Json.num ⟨12, 1⟩),
    (totKey, Json.num ⟨176, 10⟩), (weightKey, Json.num ⟨132, 100⟩)]

/-- A json-tagged fence enclosing one well-formed JSON object whose sole
string value contains a closing brace followed by a space and backticks. -/
def c4badText : String := "\x60\x60\x60json \x7b\"a\": \"x\x7d \x60\x60\x60\"\x7d \x60\x60\x60"

/-- The full content of the fenced block in `c4badText` (a valid object). -/
def c4badContent : String := "\x7b\"a\": \"x\x7d \x60\x60\x60\"\x7d"

/-- The candidate the code actually extracts from `c4badText`. -/
def c4badSpan : String := "\x7b\"a\": \"x\x7d"

/-- Prose before the first fence (contains unrelated braces). -/
def c4pre : List Char := ("junk \x7bnot\x7d ").data

/-- Whitespace between the fence tag and the object. -/
def c4ws : List Char := [' ']

/-- Body of the first fenced object, braces excluded. -/
def c4mid : List Char := ("\"a\": 1").data

/-- Whitespace before the closing fence. -/
def c4ws2 : List Char := ['\n']

/-- Prose after the first fenced block: more braces and a second fenced
block. -/
def c4post : List Char := (" tail \x7bmore\x7d \x60\x60\x60json \x7b\"c\": 3\x7d \x60\x60\x60").data

/-- A bare JSON object with no fence. -/
def c5text : String := "\x7b\"scale\": \"1:100\", \"bbs\": []\x7d"

/-- The decoded value of `c5text` (also the normalized output, as its `bbs`
is empty). -/
def c5data : Json := Json.obj [(scaleKey, Json.str ("1:100")), (bbsKey, Json.arr [])]

/-- A bbs item carrying a mark but no `dia_mm` and no `total_length`. -/
def c6item : Json := Json.obj [(markKey, Json.str ("F1-M1")), (totKey, Json.num ⟨176, 10⟩)]

/-- A bare response whose single bbs item lacks `dia_mm`. -/
def c6badText : String := "\x7b\"bbs\": [\x7b\"mark\": \"B\"\x7d]\x7d"

/-- The decoded value of `c6badText`. -/
def c6badData : Json := Json.obj [(bbsKey, Json.arr [Json.obj [(markKey, Json.str ("B"))]])]

/-- A response whose first bbs item is fine and whose second lacks `dia_mm`. -/
def c7text : String := "\x7b\"scale\": \"1:50\", \"boq\": [1], \"bbs\": [\x7b\"mark\": \"A\", \"dia_mm\": 8, \"total_length\": 2\x7d, \x7b\"mark\": \"B\", \"total_length\": 3\x7d]\x7d"

/-- The decoded value of `c7text`. -/
def c7data : Json :=
  Json.obj [(scaleKey, Json.str ("1:50")), (boqKey, Json.arr [Json.num ⟨1, 1⟩]),
    (bbsKey, Json.arr [
      Json.obj [(markKey, Json.str ("A")), (diaKey, Json.num ⟨8, 1⟩), (totKey, Json.num ⟨2, 1⟩)],
      Json.obj [(markKey, Json.str ("B")), (totKey, Json.num ⟨3, 1⟩)]])]

/-- Input of the pass-through witness. -/
def c8data : Json :=
  Json.obj [(scaleKey, Json.str ("1:100")), (bbsKey, Json.arr [
    Json.obj [(markKey, Json.str ("A")), (diaKey, Json.num ⟨10, 1⟩), (totKey, Json.num ⟨3, 1⟩)]])]

/-- Normalized output for `c8data` (weight 1.89 appended). -/
def c8out : Json :=
  Json.obj [(scaleKey, Json.str ("1:100")), (bbsKey, Json.arr [
    Json.obj [(markKey, Json.str ("A")), (diaKey, Json.num ⟨10, 1⟩), (totKey, Json.num ⟨3, 1⟩),
      (weightKey, Json.num ⟨189, 100⟩)]])]

/-- Input of the idempotence witness. -/
def c9data : Json :=
  Json.obj [(bbsKey, Json.arr [Json.obj [(diaKey, Json.num ⟨8, 1⟩), (totKey, Json.num ⟨2, 1⟩)]])]

/-- Normalized output for `c9data` (weight 0.81 appended). -/
def c9out : Json :=
  Json.obj [(bbsKey, Json.arr [Json.obj [(diaKey, Json.num ⟨8, 1⟩), (totKey, Json.num ⟨2, 1⟩),
    (weightKey, Json.num ⟨81, 100⟩)]])]

/-- A bare response with two boq entries and two bbs entries. -/
def c10text : String := "\x7b\"boq\": [\x7b\"component\": \"F1\"\x7d, \x7b\"component\": \"B1\"\x7d], \"bbs\": [\x7b\"dia_mm\": 8, \"total_length\": 2\x7d, \x7b\"dia_mm\": 10, \"total_length\": 3\x7d]\x7d"

/-- The decoded value of `c10text`. -/
def c10data : Json :=
  Json.obj [(boqKey, Json.arr [Json.obj [("component", Json.str ("F1"))],
      Json.obj [("component", Json.str ("B1"))]]),
    (bbsKey, Json.arr [
      Json.obj [(diaKey, Json.num ⟨8, 1⟩), (totKey, Json.num ⟨2, 1⟩)],
      Json.obj [(diaKey, Json.num ⟨10, 1⟩), (totKey, Json.num ⟨3, 1⟩)]])]

/-- Normalized output for `c10data` (weights 0.81 and 1.89 appended). -/
def c10out : Json :=
  Json.obj [(boqKey, Json.arr [Json.obj [("component", Json.str ("F1"))],
      Json.obj [("component", Json.str ("B1"))]]),
    (bbsKey, Json.arr [
      Json.obj [(diaKey, Json.num ⟨8, 1⟩), (totKey, Json.num ⟨2, 1⟩), (weightKey, Json.num ⟨81, 100⟩)],
      Json.obj [(diaKey, Json.num ⟨10, 1⟩), (totKey, Json.num ⟨3, 1⟩), (weightKey, Json.num ⟨189, 100⟩)]])]

/-! ## Helper lemmas -/

theorem lookup_setPairs_self (kvs : List (String × Json)) (k : String) (v : Json) :
    lookupKey (setPairs kvs k v) k = some v := by
  induction kvs with
  | nil => simp [setPairs, lookupKey]
  | cons p rest ih =>
    obtain ⟨k', v'⟩ := p
    by_cases h : k' = k
    · simp [setPairs, h, lookupKey]
    · simp [setPairs, h, lookupKey, ih]

theorem lookup_setPairs_ne (kvs : List (String × Json)) (k k' : String) (v : Json)
    (h : k' ≠ k) : lookupKey (setPairs kvs k v) k' = lookupKey kvs k' := by
  induction kvs with
  | nil => simp [setPairs, lookupKey, Ne.symm h]
  | cons p rest ih =>
    obtain ⟨k'', v''⟩ := p
    by_cases h2 : k'' = k
    · subst h2
      simp [setPairs, lookupKey, Ne.symm h]
    · by_cases h3 : k'' = k'
      · subst h3
        simp [setPairs, h2, h, lookupKey]
      · simp [setPairs, h2, lookupKey, h3, ih]

theorem setPairs_idem (kvs : List (String × Json)) (k : String) (v : Json) :
    setPairs (setPairs kvs k v) k v = setPairs kvs k v := by
  induction kvs with
  | nil => simp [setPairs]
  | cons p rest ih =>
    obtain ⟨k', v'⟩ := p
    by_cases h : k' = k
    · simp [setPairs, h]
    · simp [setPairs, h, ih]

theorem getKey_setKey_self (kvs : List (String × Json)) (k : String) (v : Json) :
    Json.getKey (Json.setKey (Json.obj kvs) k v) k = some v := by
  simp [Json.setKey, Json.getKey, lookup_setPairs_self]

theorem getKey_setKey_ne (kvs : List (String × Json)) (k k' : String) (v : Json)
    (h : k' ≠ k) : Json.getKey (Json.setKey (Json.obj kvs) k v) k' = Json.getKey (Json.obj kvs) k' := by
  simp [Json.setKey, Json.getKey, lookup_setPairs_ne _ _ _ _ h]

theorem getKey_some_obj (data : Json) (k : String) (v : Json)
    (h : Json.getKey data k = some v) : ∃ kvs, data = Json.obj kvs := by
  cases data with
  | obj kvs => exact ⟨kvs, rfl⟩
  | null => simp [Json.getKey] at h
  | bool b => simp [Json.getKey] at h
  | num q => simp [Json.getKey] at h
  | str s => simp [Json.getKey] at h
  | arr xs => simp [Json.getKey] at h

theorem mapExcept_ok_iff (f : Json → Except PyErr Json) (xs ys : List Json)
    (h : mapExcept f xs = Except.ok ys) :
    ys.length = xs.length ∧
      ∀ i x, xs.get? i = some x → ∃ y, f x = Except.ok y ∧ ys.get? i = some y := by
  induction xs generalizing ys with
  | nil =>
    simp [mapExcept] at h
    subst h
    simp
  | cons x xs ih =>
    cases hfx : f x with
    | error e => simp [mapExcept, hfx] at h
    | ok y =>
      cases hm : mapExcept f xs with
      | error e => simp [mapExcept, hfx, hm] at h
      | ok ys' =>
        simp [mapExcept, hfx, hm] at h
        subst h
        obtain ⟨hlen, hget⟩ := ih ys' hm
        refine ⟨by simp [hlen], ?_⟩
        intro i z hz
        cases i with
        | zero =>
          simp at hz
          subst hz
          exact ⟨y, hfx, by simp⟩
        | succ j =>
          simp at hz
          obtain ⟨w, hw, hw2⟩ := hget j z (by simpa using hz)
          exact ⟨w, hw, by simpa using hw2⟩

theorem mapExcept_all_ok (f : Json → Except PyErr Json) (xs : List Json)
    (h : ∀ x ∈ xs, ∃ y, f x = Except.ok y) :
    ∃ ys, mapExcept f xs = Except.ok ys := by
  induction xs with
  | nil => exact ⟨[], rfl⟩
  | cons x xs ih =>
    obtain ⟨y, hy⟩ := h x (by simp)
    obtain ⟨ys, hys⟩ := ih (fun z hz => h z (by simp [hz]))
    exact ⟨y :: ys, by simp [mapExcept, hy, hys]⟩

theorem mapExcept_fix (f : Json → Except PyErr Json) (xs ys : List Json)
    (h : mapExcept f xs = Except.ok ys)
    (hf : ∀ x y, f x = Except.ok y → f y = Except.ok y) :
    mapExcept f ys = Except.ok ys := by
  induction xs generalizing ys with
  | nil =>
    simp [mapExcept] at h
    subst h
    rfl
  | cons x xs ih =>
    cases hfx : f x with
    | error e => simp [mapExcept, hfx] at h
    | ok y =>
      cases hm : mapExcept f xs with
      | error e => simp [mapExcept, hfx, hm] at h
      | ok ys' =>
        simp [mapExcept, hfx, hm] at h
        subst h
        simp [mapExcept, hf x y hfx, ih ys' hm]

theorem normItem_spec (kvs : List (String × Json)) (dv lv : Json) (d l : PyNum)
    (h1 : lookupKey kvs diaKey = some dv) (h2 : toNum dv = some d)
    (h3 : lookupKey kvs totKey = some lv) (h4 : toNum lv = some l) :
    normItem (Json.obj kvs)
      = Except.ok (Json.obj (setPairs kvs weightKey (Json.num (pythonWeight d l)))) := by
  simp [normItem, subscriptField, h1, h2, h3, h4, Json.setKey]

theorem normItem_ok_inv (item item' : Json) (h : normItem item = Except.ok item') :
    ∃ kvs dv lv d l, item = Json.obj kvs ∧
      lookupKey kvs diaKey = some dv ∧ toNum dv = some d ∧
      lookupKey kvs totKey = some lv ∧ toNum lv = some l ∧
      item' = Json.obj (setPairs kvs weightKey (Json.num (pythonWeight d l))) := by
  cases item with
  | obj kvs =>
    cases hdv : lookupKey kvs diaKey with
    | none => simp [normItem, subscriptField, hdv] at h
    | some dv =>
      cases hlv : lookupKey kvs totKey with
      | none => simp [normItem, subscriptField, hdv, hlv] at h
      | some lv =>
        cases hd : toNum dv with
        | none => simp [normItem, subscriptField, hdv, hlv, hd] at h
        | some d =>
          cases hl : toNum lv with
          | none => simp [normItem, subscriptField, hdv, hlv, hd, hl] at h
          | some l =>
            refine ⟨kvs, dv, lv, d, l, rfl, hdv, hd, hlv, hl, ?_⟩
            simp [normItem, subscriptField, hdv, hlv, hd, hl, Json.setKey] at h
            exact h.symm
  | null => simp [normItem, subscriptField] at h
  | bool b => simp [normItem, subscriptField] at h
  | num q => simp [normItem, subscriptField] at h
  | str s => simp [normItem, subscriptField] at h
  | arr xs => simp [normItem, subscriptField] at h

theorem normItem_idem (item item' : Json) (h : normItem item = Except.ok item') :
    normItem item' = Except.ok item' := by
  obtain ⟨kvs, dv, lv, d, l, hobj, hdv, hd, hlv, hl, hout⟩ := normItem_ok_inv item item' h
  subst hout
  have hdv' : lookupKey (setPairs kvs weightKey (Json.num (pythonWeight d l))) diaKey = some dv := by
    rw [lookup_setPairs_ne _ _ _ _ (by decide)]
    exact hdv
  have hlv' : lookupKey (setPairs kvs weightKey (Json.num (pythonWeight d l))) totKey = some lv := by
    rw [lookup_setPairs_ne _ _ _ _ (by decide)]
    exact hlv
  rw [normItem_spec _ dv lv d l hdv' hd hlv' hl, setPairs_idem]

theorem normalizeResult_ok_inv (data out : Json) (h : normalizeResult data = Except.ok out) :
    (out = data ∧ bbsItems data = []) ∨
      ∃ xs ys, Json.getKey data bbsKey = some (Json.arr xs) ∧
        mapExcept normItem xs = Except.ok ys ∧
        out = Json.setKey data bbsKey (Json.arr ys) := by
  cases hk : Json.getKey data bbsKey with
  | none =>
    simp [normalizeResult, hk] at h
    exact Or.inl ⟨h.symm, by simp [bbsItems, hk]⟩
  | some v =>
    cases v with
    | arr xs =>
      cases hm : mapExcept normItem xs with
      | error e => simp [normalizeResult, hk, hm] at h
      | ok ys =>
        simp [normalizeResult, hk, hm] at h
        exact Or.inr ⟨xs, ys, rfl, hm, h.symm⟩
    | str s =>
      by_cases hs : s = ""
      · subst hs
        simp [normalizeResult, hk] at h
        exact Or.inl ⟨h.symm, by simp [bbsItems, hk]⟩
      · simp [normalizeResult, hk, hs] at h
    | obj kvs =>
      cases kvs with
      | nil =>
        simp [normalizeResult, hk] at h
        exact Or.inl ⟨h.symm, by simp [bbsItems, hk]⟩
      | cons p rest => simp [normalizeResult, hk] at h
    | null => simp [normalizeResult, hk] at h
    | bool b => simp [normalizeResult, hk] at h
    | num q => simp [normalizeResult, hk] at h

theorem normalizeResult_arr (data : Json) (xs ys : List Json)
    (hk : Json.getKey data bbsKey = some (Json.arr xs))
    (hm : mapExcept normItem xs = Except.ok ys) :
    normalizeResult data = Except.ok (Json.setKey data bbsKey (Json.arr ys)) := by
  simp [normalizeResult, hk, hm]

theorem parse_response_ok (t c : List Char) (data out : Json)
    (h1 : extractCandidate t = some c) (h2 : loads c = some data)
    (h3 : normalizeResult data = Except.ok out) : parse_response t = out := by
  simp [parse_response, h1, h2, h3]

theorem parse_response_noCand (t : List Char) (h : extractCandidate t = none) :
    parse_response t = placeholderResult := by
  simp [parse_response, h]

theorem parse_response_badJson (t c : List Char) (h1 : extractCandidate t = some c)
    (h2 : loads c = none) : parse_response t = placeholderResult := by
  simp [parse_response, h1, h2]

theorem parse_response_normErr (t c : List Char) (data : Json) (e : PyErr)
    (h1 : extractCandidate t = some c) (h2 : loads c = some data)
    (h3 : normalizeResult data = Except.error e) : parse_response t = placeholderResult := by
  simp [parse_response, h1, h2, h3]

theorem bbsItems_setKey (kvs : List (String × Json)) (ys : List Json) :
    bbsItems (Json.setKey (Json.obj kvs) bbsKey (Json.arr ys)) = ys := by
  simp [bbsItems, getKey_setKey_self]

/-! ## Claim theorems -/

/-- Claim C3: for every input text, `_parse_response` hands its caller a
result (either the placeholder or a successfully normalized record, never an
exception); in particular when no JSON-shaped candidate is found, or the
candidate fails to decode, it returns the placeholder, whose `scale` is
`"Unknown"`, whose `boq`, `bbs` and `assumptions` are empty, and whose
`notes` is a non-empty list holding the diagnostic line. -/
theorem C3_graceful_failure (t : List Char) :
    (parse_response t = placeholderResult ∨
      ∃ c data out, extractCandidate t = some c ∧ loads c = some data ∧
        normalizeResult data = Except.ok out ∧ parse_response t = out) ∧
    (extractCandidate t = none → parse_response t = placeholderResult) ∧
    (∀ c, extractCandidate t = some c → loads c = none →
      parse_response t = placeholderResult) ∧
    Json.getKey placeholderResult scaleKey = some (Json.str unknownScale) ∧
    Json.getKey placeholderResult boqKey = some (Json.arr []) ∧
    Json.getKey placeholderResult bbsKey = some (Json.arr []) ∧
    Json.getKey placeholderResult assumpKey = some (Json.arr []) ∧
    Json.getKey placeholderResult notesKey = some (Json.arr [Json.str failNote]) ∧
    ([Json.str failNote] : List Json) ≠ [] := by
  refine ⟨?_, fun h => parse_response_noCand t h,
    fun c h1 h2 => parse_response_badJson t c h1 h2, rfl, rfl, rfl, rfl, rfl, by simp⟩
  cases he : extractCandidate t with
  | none => exact Or.inl (parse_response_noCand t he)
  | some c =>
    cases hl : loads c with
    | none => exact Or.inl (parse_response_badJson t c he hl)
    | some data =>
      cases hn : normalizeResult data with
      | error e => exact Or.inl (parse_response_normErr t c data e he hl hn)
      | ok out =>
        exact Or.inr ⟨c, data, out, rfl, hl, hn, parse_response_ok t c data out he hl hn⟩

theorem C3_witness : parse_response (("cannot process this").data) = placeholderResult :=
  (C3_graceful_failure (("cannot process this").data)).2.1 rfl

/-- Claim C7: normalization failures are atomic for the caller: whenever the
weight recomputation raises on any bbs item, `_parse_response` returns
exactly the fixed placeholder result (scale `"Unknown"`, empty `boq`, `bbs`
and `assumptions`, a single diagnostic note) — never a partly normalized
record. -/
theorem C7_atomic_failure (t c : List Char) (data : Json) (e : PyErr)
    (h1 : extractCandidate t = some c) (h2 : loads c = some data)
    (h3 : normalizeResult data = Except.error e) :
    parse_response t = placeholderResult ∧
    Json.getKey placeholderResult scaleKey = some (Json.str unknownScale) ∧
    Json.getKey placeholderResult boqKey = some (Json.arr []) ∧
    Json.getKey placeholderResult bbsKey = some (Json.arr []) ∧
    Json.getKey placeholderResult assumpKey = some (Json.arr []) ∧
    Json.getKey placeholderResult notesKey = some (Json.arr [Json.str failNote]) :=
  ⟨parse_response_normErr t c data e h1 h2 h3, rfl, rfl, rfl, rfl, rfl⟩

theorem C7_witness : parse_response ((c7text).data) = placeholderResult :=
  (C7_atomic_failure ((c7text).data) ((c7text).data) c7data (PyErr.keyError diaKey)
    rfl rfl rfl).1

/-- Claim C2 counterexample: for dia 12 and total length 17.6 the code does
compute `round((144/162) * 17.6 * 1.02, 2)` — but that value is 15.96, not
the 13.29 the claim asserts. -/
theorem C2_counterexample :
    normItem c2item = Except.ok (Json.setKey c2item weightKey (Json.num ⟨1596, 100⟩)) ∧
    ¬ PyNum.equiv ⟨1596, 100⟩ ⟨1329, 100⟩ :=
  ⟨rfl, by decide⟩

/-- Claim C2 amended: for dia_mm = 12 and total_length = 17.6 the Normalizer
computes `weight_kg = round((144/162) * 17.6 * 1.02, 2)`, and that value
equals 15.96 (not 13.29). -/
theorem C2_weight_value :
    pythonWeight ⟨12, 1⟩ ⟨176, 10⟩ = ⟨1596, 100⟩ ∧
    normItem c2item
      = Except.ok (Json.setKey c2item weightKey (Json.num (pythonWeight ⟨12, 1⟩ ⟨176, 10⟩))) ∧
    PyNum.equiv (pythonWeight ⟨12, 1⟩ ⟨176, 10⟩) ⟨1596, 100⟩ :=
  ⟨by decide, rfl, by decide⟩

/-- Claim C6 counterexample: a bbs item with mark `"F1-M1"` and no `dia_mm`
makes normalization of that item raise a key error naming dia_mm — an error that
carries the missing field's name and not the item's mark (and no
`MissingFieldError` exists in the code). -/
theorem C6_counterexample :
    Json.getKey c6item markKey = some (Json.str ("F1-M1")) ∧
    normItem c6item = Except.error (PyErr.keyError diaKey) ∧
    diaKey ≠ "F1-M1" :=
  ⟨rfl, rfl, by decide⟩

/-- Claim C6 amended: for a bbs item, a missing `dia_mm` raises
a key error naming dia_mm and a missing `total_length` raises
a key error naming total_length (the error names the missing field, never the
item's mark); a present but non-numeric `dia_mm` (string, null, list or
dict — booleans count as numeric) raises `TypeError` at the exponentiation,
and a non-numeric `total_length` raises `TypeError` at the product; any such
error is caught by the pipeline, which returns the placeholder result. -/
theorem C6_missing_field (kvs : List (String × Json)) :
    (lookupKey kvs diaKey = none →
      normItem (Json.obj kvs) = Except.error (PyErr.keyError diaKey)) ∧
    (∀ dv, lookupKey kvs diaKey = some dv → lookupKey kvs totKey = none →
      normItem (Json.obj kvs) = Except.error (PyErr.keyError totKey)) ∧
    (∀ dv lv, lookupKey kvs diaKey = some dv → lookupKey kvs totKey = some lv →
      toNum dv = none → normItem (Json.obj kvs) = Except.error (PyErr.typeError powMsg)) ∧
    (∀ dv lv d, lookupKey kvs diaKey = some dv → lookupKey kvs totKey = some lv →
      toNum dv = some d → toNum lv = none →
      normItem (Json.obj kvs) = Except.error (PyErr.typeError mulMsg)) ∧
    (∀ t c data e, extractCandidate t = some c → loads c = some data →
      normalizeResult data = Except.error e → parse_response t = placeholderResult) := by
  refine ⟨?_, ?_, ?_, ?_, fun t c data e h1 h2 h3 => parse_response_normErr t c data e h1 h2 h3⟩
  · intro h
    simp [normItem, subscriptField, h]
  · intro dv h1 h2
    simp [normItem, subscriptField, h1, h2]
  · intro dv lv h1 h2 h3
    simp [normItem, subscriptField, h1, h2, h3]
  · intro dv lv d h1 h2 h3 h4
    simp [normItem, subscriptField, h1, h2, h3, h4]

theorem C6_witness :
    normItem (Json.obj [(markKey, Json.str ("A"))]) = Except.error (PyErr.keyError diaKey) ∧
    normItem (Json.obj [(diaKey, Json.num ⟨12, 1⟩)]) = Except.error (PyErr.keyError totKey) ∧
    normItem (Json.obj [(diaKey, Json.str ("12")), (totKey, Json.num ⟨2, 1⟩)])
      = Except.error (PyErr.typeError powMsg) ∧
    normItem (Json.obj [(diaKey, Json.num ⟨12, 1⟩), (totKey, Json.null)])
      = Except.error (PyErr.typeError mulMsg) ∧
    parse_response ((c6badText).data) = placeholderResult := by
  refine ⟨(C6_missing_field _).1 rfl,
    (C6_missing_field _).2.1 (Json.num ⟨12, 1⟩) rfl rfl,
    (C6_missing_field _).2.2.1 (Json.str ("12")) (Json.num ⟨2, 1⟩) rfl rfl rfl,
    (C6_missing_field _).2.2.2.1 (Json.num ⟨12, 1⟩) Json.null ⟨12, 1⟩ rfl rfl rfl rfl,
    (C6_missing_field []).2.2.2.2 ((c6badText).data) ((c6badText).data) c6badData
      (PyErr.keyError diaKey) rfl rfl rfl⟩

/-- Claim C1: whenever the extracted candidate decodes as JSON and every bbs
item carries usable `dia_mm` and `total_length` values, the returned result's
bbs list exists positionwise, and each item whose `dia_mm` and
`total_length` are JSON numbers has its `weight_kg` set to
`round((dia_mm^2 / 162) * total_length * 1.02, 2)` — a value depending only
on `dia_mm` and `total_length`, so whatever `weight_kg` the input carried is
overwritten. -/
theorem C1_weight_formula (t c : List Char) (data : Json) (xs : List Json)
    (h1 : extractCandidate t = some c) (h2 : loads c = some data)
    (hbbs : Json.getKey data bbsKey = some (Json.arr xs))
    (hall : ∀ item ∈ xs,
      (∃ dv, Json.getKey item diaKey = some dv ∧ (toNum dv).isSome = true) ∧
      (∃ lv, Json.getKey item totKey = some lv ∧ (toNum lv).isSome = true)) :
    ∃ ys, parse_response t = Json.setKey data bbsKey (Json.arr ys) ∧
      ys.length = xs.length ∧
      ∀ i item d l, xs.get? i = some item →
        Json.getKey item diaKey = some (Json.num d) →
        Json.getKey item totKey = some (Json.num l) →
        ys.get? i = some (Json.setKey item weightKey (Json.num (pythonWeight d l))) := by
  have hok : ∀ item ∈ xs, ∃ y, normItem item = Except.ok y := by
    intro item hm
    obtain ⟨⟨dv, hdv, hd'⟩, ⟨lv, hlv, hl'⟩⟩ := hall item hm
    obtain ⟨kvs, rfl⟩ := getKey_some_obj item diaKey dv hdv
    obtain ⟨d, hd⟩ := Option.isSome_iff_exists.mp hd'
    obtain ⟨l, hl⟩ := Option.isSome_iff_exists.mp hl'
    simp only [Json.getKey] at hdv hlv
    exact ⟨_, normItem_spec kvs dv lv d l hdv hd hlv hl⟩
  obtain ⟨ys, hm⟩ := mapExcept_all_ok normItem xs hok
  obtain ⟨hlen, hget⟩ := mapExcept_ok_iff normItem xs ys hm
  refine ⟨ys,
    parse_response_ok t c data _ h1 h2 (normalizeResult_arr data xs ys hbbs hm), hlen, ?_⟩
  intro i item d l hi hdv hlv
  obtain ⟨y, hy, hyi⟩ := hget i item hi
  obtain ⟨kvs, rfl⟩ := getKey_some_obj item diaKey _ hdv
  simp only [Json.getKey] at hdv hlv
  rw [normItem_spec kvs _ _ d l hdv rfl hlv rfl] at hy
  simp only [Except.ok.injEq] at hy
  subst hy
  simpa [Json.setKey] using hyi

theorem C1_witness :
    ∃ ys, parse_response ((c1text).data) = Json.setKey c1data bbsKey (Json.arr ys) ∧
      ys.length = ([c1item] : List Json).length ∧
      ∀ i item d l, ([c1item] : List Json).get? i = some item →
        Json.getKey item diaKey = some (Json.num d) →
        Json.getKey item totKey = some (Json.num l) →
        ys.get? i = some (Json.setKey item weightKey (Json.num (pythonWeight d l))) := by
  refine C1_weight_formula ((c1text).data) c1cand c1data [c1item] rfl rfl rfl ?_
  intro item hm
  simp only [List.mem_singleton] at hm
  subst hm
  exact ⟨⟨Json.num ⟨12, 1⟩, rfl, rfl⟩, ⟨Json.num ⟨176, 10⟩, rfl, rfl⟩⟩

/-- Claim C8: normalization is a frame on everything but `weight_kg`: for a
successfully normalized result, every top-level field other than `bbs`
(`scale`, `boq`, `notes`, `assumptions`, ...) is unchanged, and every bbs
item keeps all its fields (`mark`, `member`, `dia_mm`, `count`, `length`,
`total_length`, `notes`, ...) except `weight_kg`. -/
theorem C8_pass_through (data out : Json) (h : normalizeResult data = Except.ok out) :
    (∀ k, k ≠ bbsKey → Json.getKey out k = Json.getKey data k) ∧
    (bbsItems out).length = (bbsItems data).length ∧
    ∀ i item, (bbsItems data).get? i = some item →
      ∃ item', (bbsItems out).get? i = some item' ∧
        ∀ k, k ≠ weightKey → Json.getKey item' k = Json.getKey item k := by
  rcases normalizeResult_ok_inv data out h with ⟨rfl, hemp⟩ | ⟨xs, ys, hk, hm, rfl⟩
  · refine ⟨fun k _ => rfl, rfl, ?_⟩
    intro i item hi
    rw [hemp] at hi
    simp at hi
  · obtain ⟨kvs, rfl⟩ := getKey_some_obj _ _ _ hk
    obtain ⟨hlen, hget⟩ := mapExcept_ok_iff normItem xs ys hm
    have hbo : bbsItems (Json.obj kvs) = xs := by simp [bbsItems, hk]
    refine ⟨fun k hkne => getKey_setKey_ne kvs bbsKey k (Json.arr ys) hkne, ?_, ?_⟩
    · rw [bbsItems_setKey, hbo, hlen]
    · intro i item hi
      rw [hbo] at hi
      obtain ⟨y, hy, hyi⟩ := hget i item hi
      obtain ⟨kvs', dv, lv, d, l, rfl, hdv, hd, hlv, hl, rfl⟩ := normItem_ok_inv item y hy
      refine ⟨_, by rw [bbsItems_setKey]; exact hyi, ?_⟩
      intro k hkw
      simp [Json.getKey, lookup_setPairs_ne _ _ _ _ hkw]

theorem C8_witness :
    (∀ k, k ≠ bbsKey → Json.getKey c8out k = Json.getKey c8data k) ∧
    (bbsItems c8out).length = (bbsItems c8data).length ∧
    ∀ i item, (bbsItems c8data).get? i = some item →
      ∃ item', (bbsItems c8out).get? i = some item' ∧
        ∀ k, k ≠ weightKey → Json.getKey item' k = Json.getKey item k :=
  C8_pass_through c8data c8out rfl

/-- Claim C9: the weight recomputation is idempotent — renormalizing an
already normalized result succeeds and changes nothing at all (so in
particular all `weight_kg` values are the same after one or two passes). -/
theorem C9_idempotent (data out : Json) (h : normalizeResult data = Except.ok out) :
    normalizeResult out = Except.ok out := by
  rcases normalizeResult_ok_inv data out h with ⟨rfl, _⟩ | ⟨xs, ys, hk, hm, rfl⟩
  · exact h
  · obtain ⟨kvs, rfl⟩ := getKey_some_obj _ _ _ hk
    have hm' : mapExcept normItem ys = Except.ok ys :=
      mapExcept_fix normItem xs ys hm normItem_idem
    have harr := normalizeResult_arr (Json.setKey (Json.obj kvs) bbsKey (Json.arr ys)) ys ys
      (getKey_setKey_self kvs bbsKey (Json.arr ys)) hm'
    rw [harr]
    have hidem : Json.setKey (Json.setKey (Json.obj kvs) bbsKey (Json.arr ys)) bbsKey (Json.arr ys)
        = Json.setKey (Json.obj kvs) bbsKey (Json.arr ys) := by
      simp [Json.setKey, setPairs_idem]
    rw [hidem]

theorem C9_witness : normalizeResult c9out = Except.ok c9out :=
  C9_idempotent c9data c9out rfl

/-- Claim C10: parsing and normalization preserve the `boq` sequence exactly
and keep the `bbs` sequence in order with no entry dropped or duplicated:
the output bbs has the same length and its i-th entry is the normalization
image of entry i of the input. -/
theorem C10_order (t c : List Char) (data out : Json)
    (h1 : extractCandidate t = some c) (h2 : loads c = some data)
    (h3 : normalizeResult data = Except.ok out) :
    parse_response t = out ∧
    Json.getKey out boqKey = Json.getKey data boqKey ∧
    (bbsItems out).length = (bbsItems data).length ∧
    ∀ i item, (bbsItems data).get? i = some item →
      ∃ item', normItem item = Except.ok item' ∧ (bbsItems out).get? i = some item' := by
  rcases normalizeResult_ok_inv data out h3 with ⟨rfl, hemp⟩ | ⟨xs, ys, hk, hm, rfl⟩
  · refine ⟨parse_response_ok t c _ _ h1 h2 h3, rfl, rfl, ?_⟩
    intro i item hi
    rw [hemp] at hi
    simp at hi
  · obtain ⟨kvs, rfl⟩ := getKey_some_obj _ _ _ hk
    obtain ⟨hlen, hget⟩ := mapExcept_ok_iff normItem xs ys hm
    have hbo : bbsItems (Json.obj kvs) = xs := by simp [bbsItems, hk]
    refine ⟨parse_response_ok t c _ _ h1 h2 h3,
      getKey_setKey_ne kvs bbsKey boqKey (Json.arr ys) (by decide), ?_, ?_⟩
    · rw [bbsItems_setKey, hbo, hlen]
    · intro i item hi
      rw [hbo] at hi
      obtain ⟨y, hy, hyi⟩ := hget i item hi
      exact ⟨y, hy, by rw [bbsItems_setKey]; exact hyi⟩

set_option maxRecDepth 8000 in
theorem C10_witness :
    parse_response ((c10text).data) = c10out ∧
    Json.getKey c10out boqKey = Json.getKey c10data boqKey ∧
    (bbsItems c10out).length = (bbsItems c10data).length ∧
    ∀ i item, (bbsItems c10data).get? i = some item →
      ∃ item', normItem item = Except.ok item' ∧ (bbsItems c10out).get? i = some item' :=
  C10_order ((c10text).data) ((c10text).data) c10data c10out rfl rfl rfl

/-! ## Regex search lemmas -/

theorem startsList_self_append (xs ys : List Char) : startsList xs (xs ++ ys) = true := by
  induction xs with
  | nil => rfl
  | cons c cs ih => simp [startsList, ih]

theorem dropWhile_all_append (p : Char → Bool) (ws rest : List Char)
    (h : ∀ c ∈ ws, p c = true) :
    (ws ++ rest).dropWhile p = rest.dropWhile p := by
  induction ws with
  | nil => rfl
  | cons c ws' ih =>
    have hc : p c = true := h c (by simp)
    simp only [List.cons_append, List.dropWhile_cons, hc, if_true]
    exact ih (fun d hd => h d (by simp [hd]))

theorem dropWhile_all_cons (p : Char → Bool) (ws rest : List Char) (c0 : Char)
    (h : ∀ c ∈ ws, p c = true) (h0 : p c0 = false) :
    (ws ++ (c0 :: rest)).dropWhile p = c0 :: rest := by
  rw [dropWhile_all_append p ws _ h]
  simp [List.dropWhile_cons, h0]

theorem findFenced_cons_neg (c : Char) (rest : List Char)
    (h : startsList fenceTag (c :: rest) = false) :
    findFenced (c :: rest) = findFenced rest := by
  simp [findFenced, h]

theorem findFenced_skip : ∀ (pre rest : List Char),
    (∀ i, i < pre.length → startsList fenceTag ((pre ++ rest).drop i) = false) →
    findFenced (pre ++ rest) = findFenced rest := by
  intro pre
  induction pre with
  | nil => intro rest _; rfl
  | cons c pre' ih =>
    intro rest h
    have h0 : startsList fenceTag (c :: (pre' ++ rest)) = false := by
      simpa using h 0 (by simp)
    rw [List.cons_append, findFenced_cons_neg c (pre' ++ rest) h0]
    exact ih rest (fun i hi => by simpa using h (i + 1) (by simpa using Nat.succ_lt_succ hi))

theorem findFenced_found (s g : List Char)
    (h1 : startsList fenceTag s = true)
    (h2 : fencedAt (s.drop fenceTag.length) = some g) :
    findFenced s = some g := by
  cases s with
  | nil => simp [startsList, fenceTag] at h1
  | cons c rest => simp [findFenced, h1, h2]

theorem fencedScan_through : ∀ (mid tail acc : List Char),
    (∀ j, j < mid.length → mid.get? j = some rbrace →
      closesFence (mid.drop (j + 1) ++ (rbrace :: tail)) = false) →
    closesFence tail = true →
    fencedScan acc (mid ++ (rbrace :: tail))
      = some (lbrace :: (acc.reverse ++ (mid ++ [rbrace]))) := by
  intro mid
  induction mid with
  | nil =>
    intro tail acc _ hc
    simp [fencedScan, hc]
  | cons c mid' ih =>
    intro tail acc hm hc
    have hm' : ∀ j, j < mid'.length → mid'.get? j = some rbrace →
        closesFence (mid'.drop (j + 1) ++ (rbrace :: tail)) = false := by
      intro j hj hg
      have := hm (j + 1) (by simpa using Nat.succ_lt_succ hj) (by simpa using hg)
      simpa using this
    by_cases hcr : c = rbrace
    · subst hcr
      have h0 : closesFence (mid' ++ (rbrace :: tail)) = false := by
        simpa using hm 0 (by simp) (by simp)
      rw [List.cons_append]
      show fencedScan acc (rbrace :: (mid' ++ (rbrace :: tail))) = _
      rw [fencedScan, h0]
      simp only [Bool.and_false, if_false]
      rw [ih tail (rbrace :: acc) hm' hc]
      simp
    · rw [List.cons_append]
      show fencedScan acc (c :: (mid' ++ (rbrace :: tail))) = _
      rw [fencedScan]
      simp only [hcr, decide_False, Bool.false_and, if_false]
      rw [ih tail (c :: acc) hm' hc]
      simp

/-- Claim C4 counterexample: `c4badText` is exactly a json-tagged fence
enclosing one well-formed JSON object (whose only string value contains a
closing brace followed by a space and three backticks), yet the extracted
candidate is a proper prefix of the block's content — the span is cut at the
first closing brace whose continuation looks like a closing fence, not at
the block's content. -/
theorem C4_counterexample :
    (c4badText).data = fenceTag ++ (' ' :: ((c4badContent).data ++ (' ' :: fence3))) ∧
    loads ((c4badContent).data) = some (Json.obj [("a", Json.str ("x\x7d \x60\x60\x60"))]) ∧
    extractCandidate ((c4badText).data) = some ((c4badSpan).data) ∧
    (c4badSpan).data ≠ (c4badContent).data ∧
    loads ((c4badSpan).data) = none :=
  ⟨rfl, rfl, rfl, by decide, rfl⟩

/-- Claim C4 amended: the fenced pattern takes precedence over the greedy
span and uses the leftmost completing occurrence of the tag: when the first
fence-tag occurrence is followed (after whitespace) by a brace-delimited body
none of whose inner closing braces is followed by whitespace and three
backticks, the candidate is exactly that body — braces in the prose before
the fence, after the fence, or in later fenced blocks are ignored.  (Without
the no-early-closing-brace proviso the candidate can be a proper prefix of
the block, as the counterexample shows.) -/
theorem C4_fenced_semantics (pre ws mid ws2 post : List Char)
    (hpre : ∀ i, i < pre.length → startsList fenceTag
      ((pre ++ (fenceTag ++ (ws ++ (lbrace :: (mid ++ (rbrace :: (ws2 ++ (fence3 ++ post)))))))).drop i)
        = false)
    (hws : ∀ c ∈ ws, isRegexSpace c = true)
    (hmid : ∀ j, j < mid.length → mid.get? j = some rbrace →
      closesFence (mid.drop (j + 1) ++ (rbrace :: (ws2 ++ (fence3 ++ post)))) = false)
    (hws2 : ∀ c ∈ ws2, isRegexSpace c = true) :
    extractCandidate
        (pre ++ (fenceTag ++ (ws ++ (lbrace :: (mid ++ (rbrace :: (ws2 ++ (fence3 ++ post))))))))
      = some (lbrace :: (mid ++ [rbrace])) := by
  have hc : closesFence (ws2 ++ (fence3 ++ post)) = true := by
    unfold closesFence
    rw [dropWhile_all_append isRegexSpace ws2 _ hws2]
    have hb : isRegexSpace btick = false := rfl
    simp [fence3, List.dropWhile_cons, hb]
  have hscan := fencedScan_through mid (ws2 ++ (fence3 ++ post)) [] hmid hc
  have hat : fencedAt (ws ++ (lbrace :: (mid ++ (rbrace :: (ws2 ++ (fence3 ++ post))))))
      = some (lbrace :: (mid ++ [rbrace])) := by
    unfold fencedAt
    have hlb : isRegexSpace lbrace = false := rfl
    rw [dropWhile_all_cons isRegexSpace ws _ lbrace hws hlb]
    simpa using hscan
  have hdrop : (fenceTag ++ (ws ++ (lbrace :: (mid ++ (rbrace :: (ws2 ++ (fence3 ++ post))))))).drop
      fenceTag.length = ws ++ (lbrace :: (mid ++ (rbrace :: (ws2 ++ (fence3 ++ post))))) := rfl
  have hff : findFenced
      (pre ++ (fenceTag ++ (ws ++ (lbrace :: (mid ++ (rbrace :: (ws2 ++ (fence3 ++ post))))))))
      = some (lbrace :: (mid ++ [rbrace])) := by
    rw [findFenced_skip pre _ hpre]
    exact findFenced_found _ _ (startsList_self_append _ _) (by rw [hdrop]; exact hat)
  simp [extractCandidate, hff]

set_option maxRecDepth 8000 in
theorem C4_witness :
    extractCandidate
        (c4pre ++ (fenceTag ++ (c4ws ++ (lbrace :: (c4mid ++ (rbrace :: (c4ws2 ++ (fence3 ++ c4post))))))))
      = some (lbrace :: (c4mid ++ [rbrace])) ∧
    greedySpan
        (c4pre ++ (fenceTag ++ (c4ws ++ (lbrace :: (c4mid ++ (rbrace :: (c4ws2 ++ (fence3 ++ c4post))))))))
      ≠ some (lbrace :: (c4mid ++ [rbrace])) := by
  refine ⟨C4_fenced_semantics c4pre c4ws c4mid c4ws2 c4post (by decide) (by decide)
    (by decide) (by decide), by decide⟩

/-- Claim C5: when the fenced pattern finds nothing and the text has a first
opening brace strictly before its last closing brace, the candidate is
exactly the greedy span from that first `\x7b` through the last `\x7d` of
the whole text; when that span decodes and normalizes, the pipeline returns
the normalized result (so a bare well-formed JSON object is extracted and
used). -/
theorem C5_greedy_fallback (t : List Char) (p q : Nat)
    (hnf : findFenced t = none)
    (hp : t.findIdx? (fun c => c == lbrace) = some p)
    (hq : lastBraceIdx t = some q)
    (hlt : p < q) :
    extractCandidate t = some ((t.drop p).take (q - p + 1)) ∧
    ∀ d out, loads ((t.drop p).take (q - p + 1)) = some d →
      normalizeResult d = Except.ok out → parse_response t = out := by
  have h1 : extractCandidate t = some ((t.drop p).take (q - p + 1)) := by
    simp [extractCandidate, hnf, greedySpan, hp, hq, hlt]
  exact ⟨h1, fun d out hd hout => parse_response_ok t _ d out h1 hd hout⟩

theorem C5_witness :
    extractCandidate ((c5text).data) = some ((((c5text).data).drop 0).take (28 - 0 + 1)) ∧
    parse_response ((c5text).data) = c5data := by
  have h := C5_greedy_fallback ((c5text).data) 0 28 rfl rfl rfl (by decide)
  exact ⟨h.1, h.2 c5data c5data rfl rfl⟩
